import Mathlib

/-!
Verification of the `meteocima/wrfhours` WRF-log parsing library.

The repository contains two historical variants of the same design:
* a pointer-based variant (`src/parser.go`, `src/wrfoutput.go`,
  second half of `src/fileinfochan.go`): `parseFileInfo` returns
  `(*FileInfo, error)`, the restart sentinel is the `nil` pointer, and the
  watchdog relay stops on a `nil` item;
* a value-based variant (`src/wrfhours.go`, first half of
  `src/fileinfochan.go`): `parseFileInfo` returns a `FileInfo` value whose
  `Err` field carries failures, the restart sentinel is `Type == "restart"`,
  and the watchdog relay stops on an item whose `IsEmpty()` holds
  (`Type == "" && Err == nil`).

Go strings are modelled as `List Char` (the inputs and separators of this
program are ASCII, for which byte-wise and rune-wise scanning coincide);
Go `time.Time` is modelled as a civil `DateTime` record plus a conversion
to an absolute second count; Go channels are modelled by the list of items
sent on them, in order; real durations in the watchdog are modelled by an
abstract `Nat` amount of time units attached to each arrival.
-/

/-- Go strings, modelled as their sequence of runes. -/
abbrev GoStr := List Char

/-- Embed a Lean string literal as a `GoStr`. -/
def gs (s : String) : GoStr := s.data

/-- `strings.HasPrefix`: whether `pre` begins `s`. -/
def goStartsWith : GoStr → GoStr → Bool
  | _, [] => true
  | [], _ :: _ => false
  | c :: s, p :: pre => c == p && goStartsWith s pre

/-- `strings.HasSuffix`: whether `suf` ends `s`. -/
def goEndsWith (s suf : GoStr) : Bool :=
  goStartsWith s.reverse suf.reverse

/-- `strings.TrimPrefix`: drop one leading copy of `pre` when present. -/
def goTrimStart (s pre : GoStr) : GoStr :=
  if goStartsWith s pre then s.drop pre.length else s

/-- The whitespace set of Go `unicode.IsSpace` restricted to Latin-1
(the only code points this log format can produce around a filename). -/
def goIsSpace (c : Char) : Bool :=
  c == ' ' || c == '\t' || c == '\n' || c == (Char.ofNat 11) ||
  c == (Char.ofNat 12) || c == '\r' || c == (Char.ofNat 0x85) || c == (Char.ofNat 0xA0)

/-- `strings.TrimSpace`. -/
def goTrimSpace (s : GoStr) : GoStr :=
  ((s.dropWhile goIsSpace).reverse.dropWhile goIsSpace).reverse

/-- Index of the first occurrence of `sep` in `s` (`strings.Index`). -/
def findOcc : GoStr → GoStr → Option Nat
  | s, sep =>
    match s with
    | [] => if sep.isEmpty then some 0 else none
    | _ :: rest =>
      if goStartsWith s sep then some 0
      else (findOcc rest sep).map (· + 1)

/-- Fuelled worker for `goSplit`; each step consumes at least one rune of `s`
when `sep` is non-empty, so `s.length` fuel suffices. -/
def goSplitAux : Nat → GoStr → GoStr → List GoStr
  | 0, s, _ => [s]
  | fuel + 1, s, sep =>
    match findOcc s sep with
    | none => [s]
    | some i => s.take i :: goSplitAux fuel (s.drop (i + sep.length)) sep

/-- `strings.Split` for a non-empty separator. -/
def goSplit (s sep : GoStr) : List GoStr := goSplitAux s.length s sep

/-- Fuelled worker for `goSplitN`. -/
def goSplitNAux : Nat → Nat → GoStr → GoStr → List GoStr
  | _, 0, _, _ => []
  | _, 1, s, _ => [s]
  | 0, _, s, _ => [s]
  | fuel + 1, n + 2, s, sep =>
    match findOcc s sep with
    | none => [s]
    | some i => s.take i :: goSplitNAux fuel (n + 1) (s.drop (i + sep.length)) sep

/-- `strings.SplitN` for a non-empty separator and `n > 0`: at most `n`
pieces, the last one keeping the unsplit remainder. -/
def goSplitN (s sep : GoStr) (n : Nat) : List GoStr := goSplitNAux s.length n s sep

/-- Numeric value of a decimal digit rune. -/
def digitVal (c : Char) : Nat := c.toNat - 48

/-- `strconv.ParseInt(s, 10, 32)`: optional sign, then a non-empty run of
decimal digits, with the result required to fit in a signed 32-bit integer;
`none` models the non-nil `error` return. -/
def parseInt32 (s : GoStr) : Option Int :=
  match s with
  | [] => none
  | c :: rest =>
    let neg : Bool := c == '-'
    let digits : GoStr := if c == '-' || c == '+' then rest else s
    if digits.isEmpty then none
    else if digits.all Char.isDigit then
      let n : Nat := digits.foldl (fun acc d => 10 * acc + digitVal d) 0
      let v : Int := if neg then -(n : Int) else (n : Int)
      if -2147483648 ≤ v ∧ v ≤ 2147483647 then some v else none
    else none

/-- A civil timestamp as Go `time.Parse` produces for this log's layouts
(UTC, second resolution). -/
structure DateTime where
  year : Nat
  month : Nat
  day : Nat
  hour : Nat
  minute : Nat
  second : Nat
deriving DecidableEq, Repr

/-- Gregorian leap-year rule (as in Go's `time` package). -/
def isLeap (y : Nat) : Bool :=
  (y % 4 == 0 && y % 100 != 0) || y % 400 == 0

/-- Days in a month of a given year. -/
def daysInMonth (y m : Nat) : Nat :=
  if m = 2 then (if isLeap y then 29 else 28)
  else if m = 4 ∨ m = 6 ∨ m = 9 ∨ m = 11 then 30
  else 31

/-- Read exactly two decimal digits. -/
def getNum2 : GoStr → Option (Nat × GoStr)
  | a :: b :: rest =>
    if a.isDigit && b.isDigit then some (10 * digitVal a + digitVal b, rest) else none
  | _ => none

/-- Read exactly four decimal digits. -/
def getNum4 : GoStr → Option (Nat × GoStr)
  | a :: b :: c :: d :: rest =>
    if a.isDigit && b.isDigit && c.isDigit && d.isDigit then
      some (1000 * digitVal a + 100 * digitVal b + 10 * digitVal c + digitVal d, rest)
    else none
  | _ => none

/-- Consume a literal token. -/
def expectTok (tok s : GoStr) : Option GoStr :=
  if goStartsWith s tok then some (s.drop tok.length) else none

/-- Field-range validation performed by Go `time.Parse`. -/
def validDate (y mo d h mi se : Nat) : Bool :=
  1 ≤ mo && mo ≤ 12 && 1 ≤ d && d ≤ daysInMonth y mo && h < 24 && mi < 60 && se < 60

/-- `time.Parse` against layout `2006-01-02` ++ `sep` ++ `15:04:05`:
the two layouts used by this program are `sep = "_"` (start-instant lines)
and `sep = ""` (timing-line filenames). `none` models a parse error. -/
def parseTsWith (sep s : GoStr) : Option DateTime := do
  let (y, s) ← getNum4 s
  let s ← expectTok (gs "-") s
  let (mo, s) ← getNum2 s
  let s ← expectTok (gs "-") s
  let (d, s) ← getNum2 s
  let s ← expectTok sep s
  let (h, s) ← getNum2 s
  let s ← expectTok (gs ":") s
  let (mi, s) ← getNum2 s
  let s ← expectTok (gs ":") s
  let (se, s) ← getNum2 s
  if s.isEmpty ∧ validDate y mo d h mi se then some ⟨y, mo, d, h, mi, se⟩ else none

/-- Days of the proleptic Gregorian calendar strictly before year `y`. -/
def daysBeforeYear (y : Nat) : Int :=
  let z : Int := (y : Int) - 1
  365 * z + Int.fdiv z 4 - Int.fdiv z 100 + Int.fdiv z 400

/-- Days of year `y` strictly before month `m`. -/
def daysBeforeMonth (y m : Nat) : Nat :=
  (List.range (m - 1)).foldl (fun acc i => acc + daysInMonth y (i + 1)) 0

/-- Absolute second count of a `DateTime` (epoch at 0001-01-01 00:00:00).
Only differences of this quantity are ever used, mirroring Go's
`Time.Sub` on absolute times. -/
def DateTime.toSeconds (dt : DateTime) : Int :=
  (daysBeforeYear dt.year + (daysBeforeMonth dt.year dt.month : Int) + ((dt.day : Int) - 1)) * 86400
  + (dt.hour : Int) * 3600 + (dt.minute : Int) * 60 + (dt.second : Int)

/-- Go `time.Time.Sub` on two whole-second instants, in nanoseconds: the
exact difference when it is representable as a `time.Duration` (a signed
64-bit nanosecond count), otherwise saturated to `minDuration = -1 << 63`
or `maxDuration = 1<<63 - 1`.

`HourProgr = int(Sub(...).Hours())` is then modelled as exact truncating
division of this saturated value by one hour (`Int.tdiv d 3600000000000`):
`Hours()` computes `float64(d / Hour) + float64(d % Hour) / 3.6e12`, the
whole-hour quotient (at most 2562047 in magnitude) is exactly
representable in float64, and for every value `d` this program can
produce — a whole multiple of 10^9 or one of the two saturation bounds —
the fractional part stays at least 2.7e-4 below 1, far outside float64
rounding error, so the final truncation toward zero returns exactly the
integer quotient. -/
def durSub (a b : Int) : Int :=
  let d := (a - b) * 1000000000
  if d < -9223372036854775808 then -9223372036854775808
  else if d > 9223372036854775807 then 9223372036854775807
  else d

/-- `const filesPrefix = "Timing for Writing "`. -/
def filesMarker : GoStr := gs "Timing for Writing "

/-- The literal sentinel error used by `parseCurrLine` / `Parse`
(`fmt.Errorf("completed")`). -/
def completedMsg : GoStr := gs "completed"

/-- The failure message of a stream that ends without its success marker. -/
def incompleteMsg : GoStr := gs "input stream completed without success log line"

/-- `FileInfo` (src/wrfhours.go:17-29 / src/wrfoutput.go:19-31), with Go's
zero values as field defaults. `err` models the `Err error` field; error
values are modelled by their message strings
(library-produced messages are abbreviated to a stable tag). -/
structure FileInfo where
  ftype : GoStr := []
  domain : Int := 0
  instant : DateTime := ⟨1, 1, 1, 0, 0, 0⟩
  hourProgr : Int := 0
  filename : GoStr := []
  err : Option GoStr := none
deriving DecidableEq, Repr

/-- A `FileInfo` that carries only an error (`&FileInfo{Err: err}`). -/
def errItem (msg : GoStr) : FileInfo := { err := some msg }

/-- `FileInfo.IsEmpty` (src/wrfhours.go:32-34):
`f.Type == "" && f.Err == nil`. -/
def FileInfo.IsEmpty (f : FileInfo) : Bool :=
  f.ftype == [] && f.err == none

/-- The watchdog's synthetic timeout failure
(`fmt.Errorf("Timeout expired: no new files created for more than %s", timeout)`;
the rendering of the duration value is abbreviated since only the message's
identity matters to the stream semantics). -/
def timeoutItem (timeout : Nat) : FileInfo :=
  errItem (gs "Timeout expired: no new files created for more than " ++ [Char.ofNat (48 + timeout % 10)])

/-- `parser.isSuccessLine` (src/parser.go:202-204). -/
def isSuccessLine (currline : GoStr) : Bool :=
  goEndsWith currline (gs "SUCCESS COMPLETE WRF")

/-- `parser.isStartInstantLine` (src/parser.go:206-208); `start` is the
parser's `Start` field. -/
def isStartInstantLine (start : Option DateTime) (currline : GoStr) : Bool :=
  goStartsWith currline (gs "d01 ") && start.isNone

/-- `parser.isFileInfoLine` (src/parser.go:210-212). -/
def isFileInfoLine (currline : GoStr) : Bool :=
  goStartsWith currline filesMarker

/-- The wrapping applied by `parseFileInfo`'s deferred handler:
`fmt.Errorf("Wrong format for timing line `+"`%s`"+`: %w", currline, failure)`. -/
def wrapTiming (currline msg : GoStr) : GoStr :=
  (gs "Wrong format for timing line `" ++ currline ++ gs "`: ") ++ msg

/-- `parser.parseStartInstant` (src/parser.go:184-200) as a function of the
current line: split on `" "` into at most 3 parts, require exactly 3, and
parse the second against layout `2006-01-02_15:04:05`. -/
def parseStartInstant (currline : GoStr) : Except GoStr DateTime :=
  let lineParts := goSplitN currline (gs " ") 3
  if lineParts.length ≠ 3 then
    .error (gs "Wrong format for start instant line `" ++ currline ++
      gs "`: line must contains at leas 3 space separated parts. e.g. `d01 2021-08-04_00:00:00 something`")
  else
    match parseTsWith (gs "_") (lineParts.getD 1 []) with
    | some instant => .ok instant
    | none => .error (gs "Wrong format for start instant line `" ++ currline ++ gs "`: " ++
        gs "parsing time failed")

namespace PtrV

/-- `parser.parseFileInfo`, pointer variant (src/parser.go:123-182), as a
function of the parser's `Start` field and current line. `.ok none` models
the `(nil, nil)` restart return; `.error` models a non-nil `failure`
(after the deferred wrapping, which also nils out `info`); the
`Start == nil` check precedes the deferred wrapper, so that message is
unwrapped. -/
def parseFileInfo (start : Option DateTime) (currline : GoStr) :
    Except GoStr (Option FileInfo) :=
  match start with
  | none => .error (gs "Start line not found yet")
  | some startT =>
    let fname := goTrimStart currline filesMarker
    let fnameParts := goSplit fname (gs " for domain")
    if fnameParts.length ≠ 2 then
      .error (wrapTiming currline (gs "`for domain` expected to appears in line"))
    else
      let filename := goTrimSpace (fnameParts.getD 0 [])
      if filename = gs "restart" then .ok none
      else
        let filenameParts := goSplit filename (gs "_")
        if filenameParts.length ≠ 4 then
          .error (wrapTiming currline (gs "filename expected to be formed by 4 parts separated by underscores"))
        else
          match parseInt32 (goTrimStart (filenameParts.getD 1 []) (gs "d")) with
          | none => .error (wrapTiming currline (gs "invalid domain"))
          | some domain =>
            match parseTsWith [] (filenameParts.getD 2 [] ++ filenameParts.getD 3 []) with
            | none => .error (wrapTiming currline (gs "invalid time instant"))
            | some instant =>
              .ok (some { ftype := filenameParts.getD 0 [], domain := domain,
                          instant := instant,
                          hourProgr := Int.tdiv
                            (durSub instant.toSeconds startT.toSeconds) 3600000000000,
                          filename := filename, err := none })

/-- `parser.parseCurrLine`, pointer variant (src/parser.go:93-120), as a
function of the parser's `Start` field and current line, returning the
updated `Start`, the items sent on the `files` channel, and the returned
error (`some completedMsg` for the completion sentinel). -/
def parseCurrLine (start : Option DateTime) (currline : GoStr) :
    Option DateTime × List FileInfo × Option GoStr :=
  if isStartInstantLine start currline then
    match parseStartInstant currline with
    | .error e => (start, [], some e)
    | .ok instant => (some instant, [], none)
  else if isFileInfoLine currline then
    match parseFileInfo start currline with
    | .error e => (start, [], some e)
    | .ok none => (start, [], if isSuccessLine currline then some completedMsg else none)
    | .ok (some info) =>
      (start, [info], if isSuccessLine currline then some completedMsg else none)
  else (start, [], if isSuccessLine currline then some completedMsg else none)

/-- Outcome of the scan loop of `parser.Parse` (src/parser.go:66-76):
the items sent on `files`, the final `Start`, and the terminating error
(`none` when the input was exhausted without an error). -/
structure LoopOut where
  emitted : List FileInfo
  start : Option DateTime
  term : Option GoStr
deriving DecidableEq, Repr

/-- The scan loop of `parser.Parse` over the lines the scanner delivers. -/
def ParseLoop (start : Option DateTime) : List GoStr → LoopOut
  | [] => ⟨[], start, none⟩
  | currline :: rest =>
    match parseCurrLine start currline with
    | (start', emits, none) =>
      let out := ParseLoop start' rest
      ⟨emits ++ out.emitted, out.start, out.term⟩
    | (start', emits, some e) => ⟨emits, start', some e⟩

/-- Result of a full `parser.Parse` run: the complete sequence of items
sent on the internal `files` channel (the channel is closed afterwards in
every path), and how many times the `onClose` hook was invoked. -/
structure ParseOut where
  emitted : List FileInfo
  hookCalls : Nat
deriving DecidableEq, Repr

/-- `parser.Parse`, pointer variant (src/parser.go:62-91) together with
`runOnClose` (src/parser.go:49-59): `lines` are the lines the scanner
delivers, `readErr` the subsequent `scanner.Err()` (`none` for clean EOF),
and `hookErr` the error returned by the registered `onClose` hook
(`none` when the hook succeeds; the default hook `noop` never fails). -/
def Parse (lines : List GoStr) (readErr : Option GoStr) (hookErr : Option GoStr) : ParseOut :=
  let out := ParseLoop none lines
  match out.term with
  | some e =>
    if e = completedMsg then
      match hookErr with
      | some he => ⟨out.emitted ++ [errItem (gs "OnClose hook failed: " ++ he)], 1⟩
      | none => ⟨out.emitted, 1⟩
    else ⟨out.emitted ++ [errItem e], 0⟩
  | none =>
    match readErr with
    | some re => ⟨out.emitted ++ [errItem re], 0⟩
    | none => ⟨out.emitted ++ [errItem incompleteMsg], 1⟩

/-- `NewFileInfoChan`, pointer variant (src/fileinfochan.go:54-81): the
relay goroutine between the internal channel and the public one. Its input
is modelled as a timed trace: each element pairs the delay between entering
the `select` and the arrival on `inch` with the arrived item (`none` is the
`nil` item received when the producer closes the channel); an exhausted
trace stands for an immediate close. The `time.After` branch is taken when
the arrival takes strictly longer than the timeout. -/
def NewFileInfoChan (timeout : Nat) : List (Nat × Option FileInfo) → List FileInfo
  | [] => []
  | (gap, mf) :: rest =>
    if timeout < gap then [timeoutItem timeout]
    else
      match mf with
      | none => []
      | some f => f :: (if f.err.isSome then [] else NewFileInfoChan timeout rest)

/-- `parser.Collect` (src/parser.go:228-239) over the public stream's
items: first failure wins and discards the accumulated records. -/
def Collect : List FileInfo → Except GoStr (List FileInfo)
  | [] => .ok []
  | f :: rest =>
    match f.err with
    | some e => .error e
    | none => (Collect rest).map (f :: ·)

end PtrV

namespace PtrV

/-- `Filter` (src/wrfoutput.go:91-97): the `(Type, Domain)` predicate of a
registered handler. -/
structure Filter where
  ftype : GoStr
  domain : Int
deriving DecidableEq, Repr

/-- The firing decision of the handler loop body of `Execute`
(src/parser.go:248-253): a handler is skipped when
`filter.Domain != 0 && filter.Domain != file.Domain` or
`filter.Type != "" && filter.Type != file.Type`, and invoked otherwise. -/
def handlerFires (flt : Filter) (file : FileInfo) : Bool :=
  if flt.domain != 0 && flt.domain != file.domain then false
  else if flt.ftype != [] && flt.ftype != file.ftype then false
  else true

/-- A registered handler (`execHandler`, src/wrfhours.go:355-358): its
filter, plus the callback modelled by the error it returns on each file. -/
structure ExecHandler where
  fn : FileInfo → Option GoStr
  filter : Filter

/-- The inner handler loop of `Execute` (src/parser.go:247-258) on one
file: returns the wrapped error of the first failing invoked handler, and
the (handler index, file) invocations performed, in order. -/
def ExecuteFile (idx : Nat) (handlers : List ExecHandler) (file : FileInfo) :
    Option GoStr × List (Nat × FileInfo) :=
  match handlers with
  | [] => (none, [])
  | h :: hs =>
    if handlerFires h.filter file then
      match h.fn file with
      | some e => (some (gs "OnFileDo handler failed: " ++ e), [(idx, file)])
      | none =>
        let out := ExecuteFile (idx + 1) hs file
        (out.1, (idx, file) :: out.2)
    else ExecuteFile (idx + 1) hs file

/-- `parser.Execute` (src/parser.go:242-262) over the public stream's
items: a failure item is returned as-is and stops dispatch; a failing
handler aborts with its wrapped error. -/
def Execute (handlers : List ExecHandler) : List FileInfo → Option GoStr × List (Nat × FileInfo)
  | [] => (none, [])
  | f :: rest =>
    match f.err with
    | some e => (some e, [])
    | none =>
      match ExecuteFile 0 handlers f with
      | (some e, calls) => (some e, calls)
      | (none, calls) =>
        let out := Execute handlers rest
        (out.1, calls ++ out.2)

end PtrV

namespace PtrV

/-- Modelled from the spec (§8): the number of "successfully decoded
non-restart timing lines" among the lines the parser actually processes —
the spec-side counting function that claim C4 compares against the number
of emitted records. It routes lines exactly as §4.1/§4.4 describe:
start-instant lines update RunStart, a decode failure or a completion
line stops the count. -/
def countDecoded (start : Option DateTime) : List GoStr → Nat
  | [] => 0
  | currline :: rest =>
    if isStartInstantLine start currline then
      match parseStartInstant currline with
      | .error _ => 0
      | .ok instant => countDecoded (some instant) rest
    else if isFileInfoLine currline then
      match parseFileInfo start currline with
      | .error _ => 0
      | .ok none => if isSuccessLine currline then 0 else countDecoded start rest
      | .ok (some _) => 1 + (if isSuccessLine currline then 0 else countDecoded start rest)
    else if isSuccessLine currline then 0 else countDecoded start rest

/-- Modelled from the spec (§4.5): the watchdog's behavior with the timer
abstracted away — forward every arriving item verbatim, stop after a `nil`
(closed channel) or after forwarding a failure. Claim C6 compares the
watchdog against this relay when every gap is within the threshold. -/
def relayAll : List (Nat × Option FileInfo) → List FileInfo
  | [] => []
  | (_, none) :: _ => []
  | (_, some f) :: rest => f :: (if f.err.isSome then [] else relayAll rest)

end PtrV

/-- The spec's `hourOffset` semantics (§4.2 step 7): truncation of an
exact rational number toward zero — floor for non-negative values, ceiling
for negative ones (not rounding, not flooring). -/
def truncTowardZero (q : ℚ) : ℤ := if 0 ≤ q then ⌊q⌋ else ⌈q⌉

namespace ValV

/-- `parser.parseFileInfo`, value variant (src/wrfhours.go:168-226):
failures travel in the returned `FileInfo`'s `Err` field (wrapped by the
deferred handler, except for the `Start == nil` check which precedes it),
and a `restart` filename returns the sentinel `FileInfo{Type: "restart"}`
with every other field left at its zero value. -/
def parseFileInfo (start : Option DateTime) (currline : GoStr) : FileInfo :=
  match start with
  | none => { err := some (gs "Start line not found yet") }
  | some startT =>
    let fname := goTrimStart currline filesMarker
    let fnameParts := goSplit fname (gs " for domain")
    if fnameParts.length ≠ 2 then
      { err := some (wrapTiming currline (gs "`for domain` expected to appears in line")) }
    else
      let filename := goTrimSpace (fnameParts.getD 0 [])
      if filename = gs "restart" then { ftype := gs "restart" }
      else
        let filenameParts := goSplit filename (gs "_")
        if filenameParts.length ≠ 4 then
          { err := some (wrapTiming currline (gs "filename expected to be formed by 4 parts separated by underscores")) }
        else
          match parseInt32 (goTrimStart (filenameParts.getD 1 []) (gs "d")) with
          | none => { err := some (wrapTiming currline (gs "invalid domain")) }
          | some domain =>
            match parseTsWith [] (filenameParts.getD 2 [] ++ filenameParts.getD 3 []) with
            | none => { err := some (wrapTiming currline (gs "invalid time instant")) }
            | some instant =>
              { ftype := filenameParts.getD 0 [], domain := domain, instant := instant,
                hourProgr := Int.tdiv
                  (durSub instant.toSeconds startT.toSeconds) 3600000000000,
                filename := filename, err := none }

/-- `parser.parseCurrLine`, value variant (src/wrfhours.go:129-155): the
restart sentinel is recognized by `info.Type != "restart"` before sending
on the `files` channel. -/
def parseCurrLine (start : Option DateTime) (currline : GoStr) :
    Option DateTime × List FileInfo × Option GoStr :=
  if isStartInstantLine start currline then
    match parseStartInstant currline with
    | .error e => (start, [], some e)
    | .ok instant => (some instant, [], none)
  else if isFileInfoLine currline then
    let info := parseFileInfo start currline
    match info.err with
    | some e => (start, [], some e)
    | none =>
      if info.ftype ≠ gs "restart" then
        (start, [info], if isSuccessLine currline then some completedMsg else none)
      else (start, [], if isSuccessLine currline then some completedMsg else none)
  else (start, [], if isSuccessLine currline then some completedMsg else none)

/-- The scan loop of the value-variant `parser.Parse`
(src/wrfhours.go:106-115). -/
def ParseLoop (start : Option DateTime) : List GoStr → PtrV.LoopOut
  | [] => ⟨[], start, none⟩
  | currline :: rest =>
    match parseCurrLine start currline with
    | (start', emits, none) =>
      let out := ParseLoop start' rest
      ⟨emits ++ out.emitted, out.start, out.term⟩
    | (start', emits, some e) => ⟨emits, start', some e⟩

/-- `parser.Parse`, value variant (src/wrfhours.go:102-127) together with
`runOnClose` (src/wrfhours.go:82-99), returning the items sent on the
internal `files` channel. On a completed run `runOnClose(nil)` may turn a
hook failure into the terminal failure; on a loop error the prior error
always wins; on a read failure the function returns without emitting
anything (src/wrfhours.go:117-120). -/
def Parse (lines : List GoStr) (readErr : Option GoStr) (hookErr : Option GoStr) :
    List FileInfo :=
  let out := ParseLoop none lines
  match out.term with
  | some e =>
    if e = completedMsg then
      match hookErr with
      | some he => out.emitted ++ [errItem (gs "OnClose hook failed: " ++ he)]
      | none => out.emitted
    else out.emitted ++ [errItem e]
  | none =>
    match readErr with
    | some _ => out.emitted
    | none => out.emitted ++ [errItem incompleteMsg]

/-- `NewFileInfoChan`, value variant (src/fileinfochan.go:12-42), with the
same timed-trace modelling as the pointer variant; the end-of-stream
sentinel here is any received item whose `IsEmpty()` holds. -/
def newFileInfoChan (timeout : Nat) : List (Nat × FileInfo) → List FileInfo
  | [] => []
  | (gap, f) :: rest =>
    if timeout < gap then [timeoutItem timeout]
    else if f.IsEmpty then []
    else f :: (if f.err.isSome then [] else newFileInfoChan timeout rest)

end ValV

example : parseTsWith (gs "_") (gs "2021-08-04_00:00:00") = some ⟨2021, 8, 4, 0, 0, 0⟩ := by rfl

/-- C1: for the input consisting of the start line
`d01 2021-08-04_00:00:00 ...`, the timing line
`Timing for Writing wrfout_d01_2021-08-04_00:00:00 for domain        1:    0.10 elapsed seconds`,
and a `SUCCESS COMPLETE WRF` line, drain-to-collection (`Collect`) returns
exactly one record with kind `wrfout`, domain 1, instant
2021-08-04T00:00:00Z, hour offset 0 and filename
`wrfout_d01_2021-08-04_00:00:00`, and no failure. -/
theorem collect_single_wrfout_scenario :
    PtrV.Collect
      (PtrV.NewFileInfoChan 100
        ((PtrV.Parse
            [gs "d01 2021-08-04_00:00:00 alloc_space_field: domain 2",
             gs "Timing for Writing wrfout_d01_2021-08-04_00:00:00 for domain        1:    0.10 elapsed seconds",
             gs "SUCCESS COMPLETE WRF"] none none).emitted.map (fun f => (0, some f)))) =
      .ok [{ ftype := gs "wrfout", domain := 1, instant := ⟨2021, 8, 4, 0, 0, 0⟩,
             hourProgr := 0, filename := gs "wrfout_d01_2021-08-04_00:00:00",
             err := none }] := by
  rfl

/-- C8: a record passes a filter iff (the filter's kind is empty or equals
the record's kind) and (the filter's domain is zero or equals the record's
domain); the filter `{kind := wrfout, domain := 3}` fires exactly for
records with both, and the all-pass filter `{kind := "", domain := 0}`
fires for every record. -/
theorem handlerFires_iff_wildcard_or_match :
    (∀ (flt : PtrV.Filter) (file : FileInfo),
        PtrV.handlerFires flt file = true ↔
          ((flt.ftype = [] ∨ flt.ftype = file.ftype) ∧
           (flt.domain = 0 ∨ flt.domain = file.domain)))
    ∧ (∀ file : FileInfo,
        PtrV.handlerFires ⟨gs "wrfout", 3⟩ file = true ↔
          (file.ftype = gs "wrfout" ∧ file.domain = 3))
    ∧ (∀ file : FileInfo, PtrV.handlerFires ⟨[], 0⟩ file = true) := by
  have key : ∀ (flt : PtrV.Filter) (file : FileInfo),
      PtrV.handlerFires flt file = true ↔
        ((flt.ftype = [] ∨ flt.ftype = file.ftype) ∧
         (flt.domain = 0 ∨ flt.domain = file.domain)) := by
    intro flt file
    by_cases h1 : flt.domain = 0 <;> by_cases h2 : flt.domain = file.domain <;>
      by_cases h3 : flt.ftype = [] <;> by_cases h4 : flt.ftype = file.ftype <;>
      simp [PtrV.handlerFires, h1, h2, h3, h4]
  refine ⟨key, fun file => ?_, fun file => ?_⟩
  · rw [key]
    constructor
    · rintro ⟨h3, h2⟩
      refine ⟨?_, ?_⟩
      · rcases h3 with h | h
        · exact absurd h (by decide)
        · exact h.symm
      · rcases h2 with h | h
        · exact absurd h (by decide)
        · exact h.symm
    · rintro ⟨h4, h2⟩
      exact ⟨Or.inr h4.symm, Or.inr h2.symm⟩
  · rw [key]
    exact ⟨Or.inl rfl, Or.inl rfl⟩

example : parseInt32 (gs "01") = some 1 := by rfl
example : parseInt32 (gs "-5") = some (-5) := by rfl
example : parseInt32 (gs "F1") = none := by rfl
example : goSplit (gs "a_b_c_d") (gs "_") = [gs "a", gs "b", gs "c", gs "d"] := by rfl
example : goSplitN (gs "d01 2021 x y z") (gs " ") 3 = [gs "d01", gs "2021", gs "x y z"] := by rfl

theorem parseFileInfo_ok_err (start : Option DateTime) (currline : GoStr) (info : FileInfo)
    (h : PtrV.parseFileInfo start currline = .ok (some info)) : info.err = none := by
  cases start with
  | none => simp [PtrV.parseFileInfo] at h
  | some startT =>
    simp only [PtrV.parseFileInfo] at h
    split at h
    · exact absurd h (by simp)
    · split at h
      · simp at h
      · split at h
        · exact absurd h (by simp)
        · split at h
          · exact absurd h (by simp)
          · split at h
            · exact absurd h (by simp)
            · rw [Except.ok.injEq, Option.some.injEq] at h
              subst h
              rfl

theorem parseCurrLine_emits_ok (start : Option DateTime) (currline : GoStr) :
    ∀ f ∈ (PtrV.parseCurrLine start currline).2.1, f.err = none := by
  intro f hf
  unfold PtrV.parseCurrLine at hf
  split at hf
  · split at hf <;> simp_all
  · split at hf
    · split at hf <;> rename_i harm
      · simp_all
      · simp_all
      · simp only [List.mem_singleton] at hf
        subst hf
        exact parseFileInfo_ok_err start currline f harm
    · simp_all

theorem ParseLoop_emits_ok : ∀ (lines : List GoStr) (start : Option DateTime),
    ∀ f ∈ (PtrV.ParseLoop start lines).emitted, f.err = none := by
  intro lines
  induction lines with
  | nil => intro start f hf; simp [PtrV.ParseLoop] at hf
  | cons line rest ih =>
    intro start f hf
    rw [PtrV.ParseLoop] at hf
    rcases hpc : PtrV.parseCurrLine start line with ⟨start', emits, term⟩
    rw [hpc] at hf
    have hemits : ∀ g ∈ emits, g.err = none := by
      intro g hg
      have hh := parseCurrLine_emits_ok start line g
      rw [hpc] at hh
      exact hh hg
    cases term with
    | none =>
      dsimp only at hf
      rw [List.mem_append] at hf
      rcases hf with hf | hf
      · exact hemits f hf
      · exact ih start' f hf
    | some e => exact hemits f hf

/-- C7: the public output stream carries at most one failure item, and a
failure is always the last item delivered: every non-final item of the
watchdog's output is failure-free, whatever the timed input trace, and the
same holds of the parser's own emission sequence for every input. -/
theorem failure_is_terminal :
    (∀ (timeout : Nat) (trace : List (Nat × Option FileInfo)),
        ∀ f ∈ (PtrV.NewFileInfoChan timeout trace).dropLast, f.err = none)
    ∧ (∀ (lines : List GoStr) (readErr hookErr : Option GoStr),
        ∀ f ∈ (PtrV.Parse lines readErr hookErr).emitted.dropLast, f.err = none) := by
  constructor
  · intro timeout trace
    induction trace with
    | nil => intro f hf; simp [PtrV.NewFileInfoChan] at hf
    | cons p rest ih =>
      rcases p with ⟨gap, mf⟩
      intro f hf
      simp only [PtrV.NewFileInfoChan] at hf
      split at hf
      · simp [List.dropLast] at hf
      · cases mf with
        | none => simp at hf
        | some g =>
          dsimp only at hf
          by_cases herr : g.err.isSome
          · simp [herr, List.dropLast] at hf
          · rw [if_neg herr] at hf
            rcases hout : PtrV.NewFileInfoChan timeout rest with _ | ⟨q, qs⟩
            · rw [hout] at hf
              simp [List.dropLast] at hf
            · rw [hout] at hf
              rw [List.dropLast_cons₂] at hf
              rcases List.mem_cons.mp hf with hf | hf
              · subst hf
                exact Option.not_isSome_iff_eq_none.mp herr
              · have hm := ih f
                rw [hout] at hm
                exact hm hf
  · intro lines readErr hookErr f hf
    have base := ParseLoop_emits_ok lines none
    unfold PtrV.Parse at hf
    dsimp only at hf
    rcases hterm : (PtrV.ParseLoop none lines).term with _ | e
    · rw [hterm] at hf
      dsimp only at hf
      cases readErr with
      | some re =>
        dsimp only at hf
        rw [List.dropLast_concat] at hf
        exact base f hf
      | none =>
        dsimp only at hf
        rw [List.dropLast_concat] at hf
        exact base f hf
    · rw [hterm] at hf
      dsimp only at hf
      by_cases hc : e = completedMsg
      · rw [if_pos hc] at hf
        cases hookErr with
        | some he =>
          dsimp only at hf
          rw [List.dropLast_concat] at hf
          exact base f hf
        | none =>
          dsimp only at hf
          exact base f (List.dropLast_subset _ hf)
      · rw [if_neg hc] at hf
        dsimp only at hf
        rw [List.dropLast_concat] at hf
        exact base f hf

/-- C5: an input whose lines all parse cleanly (the scan loop neither
fails nor reaches a completion line) but that ends — at end-of-input or at
an underlying read failure — always terminates the stream with a failure
item: the read failure when one occurred, otherwise the
incomplete-stream failure; never a clean close. -/
theorem incomplete_stream_always_fails (lines : List GoStr) (readErr hookErr : Option GoStr)
    (h : (PtrV.ParseLoop none lines).term = none) :
    (PtrV.Parse lines readErr hookErr).emitted.getLast? =
      some (errItem (readErr.getD incompleteMsg)) := by
  unfold PtrV.Parse
  dsimp only
  rw [h]
  cases readErr with
  | some re =>
    dsimp only
    rw [List.getLast?_concat]
    rfl
  | none =>
    dsimp only
    rw [List.getLast?_concat]
    rfl

theorem incomplete_stream_always_fails_witness :
    (PtrV.ParseLoop none
        [gs "d01 2021-08-04_00:00:00 x y",
         gs "Timing for Writing wrfout_d01_2021-08-04_01:00:00 for domain        1:    1.0 elapsed seconds"]).term
      = none
    ∧ (PtrV.Parse
        [gs "d01 2021-08-04_00:00:00 x y",
         gs "Timing for Writing wrfout_d01_2021-08-04_01:00:00 for domain        1:    1.0 elapsed seconds"]
        none none).emitted.getLast? = some (errItem incompleteMsg) :=
  ⟨by rfl,
   incomplete_stream_always_fails
     [gs "d01 2021-08-04_00:00:00 x y",
      gs "Timing for Writing wrfout_d01_2021-08-04_01:00:00 for domain        1:    1.0 elapsed seconds"]
     none none (by rfl)⟩

/-- C9: on a run that reaches the completion marker the registered
on-close hook runs exactly once; a failing hook turns into the terminal
failure item of the stream, a succeeding hook leaves a clean, failure-free
close. On a run that does not complete, the emitted stream does not depend
on the hook's outcome at all — the prior failure always wins. -/
theorem completion_hook_semantics (lines : List GoStr) (readErr : Option GoStr) :
    ((PtrV.ParseLoop none lines).term = some completedMsg →
      ∀ hookErr : Option GoStr,
        (PtrV.Parse lines readErr hookErr).hookCalls = 1 ∧
        (hookErr = none →
          (PtrV.Parse lines readErr hookErr).emitted = (PtrV.ParseLoop none lines).emitted ∧
          ∀ f ∈ (PtrV.Parse lines readErr hookErr).emitted, f.err = none) ∧
        (∀ he, hookErr = some he →
          (PtrV.Parse lines readErr hookErr).emitted =
            (PtrV.ParseLoop none lines).emitted ++
              [errItem (gs "OnClose hook failed: " ++ he)]))
    ∧ ((PtrV.ParseLoop none lines).term ≠ some completedMsg →
        ∀ hookErr hookErr' : Option GoStr,
          (PtrV.Parse lines readErr hookErr).emitted =
            (PtrV.Parse lines readErr hookErr').emitted) := by
  constructor
  · intro hterm hookErr
    unfold PtrV.Parse
    dsimp only
    rw [hterm]
    dsimp only
    rw [if_pos rfl]
    cases hookErr with
    | some he =>
      refine ⟨rfl, ?_, ?_⟩
      · intro hnone; cases hnone
      · intro he' hhe
        rw [Option.some.injEq] at hhe
        subst hhe
        rfl
    | none =>
      refine ⟨rfl, ?_, ?_⟩
      · intro _
        exact ⟨rfl, ParseLoop_emits_ok lines none⟩
      · intro he hhe; cases hhe
  · intro hterm hookErr hookErr'
    unfold PtrV.Parse
    dsimp only
    rcases ht : (PtrV.ParseLoop none lines).term with _ | e
    · cases readErr <;> rfl
    · have hne : ¬ e = completedMsg := by
        intro hc
        exact hterm (by rw [ht, hc])
      dsimp only
      rw [if_neg hne, if_neg hne]

theorem completion_hook_semantics_witness :
    ((PtrV.ParseLoop none [gs "SUCCESS COMPLETE WRF"]).term = some completedMsg
      ∧ (PtrV.Parse [gs "SUCCESS COMPLETE WRF"] none (some (gs "boom"))).hookCalls = 1
      ∧ (PtrV.Parse [gs "SUCCESS COMPLETE WRF"] none (some (gs "boom"))).emitted =
          [errItem (gs "OnClose hook failed: boom")])
    ∧ ((PtrV.ParseLoop none [gs "noise"]).term ≠ some completedMsg
      ∧ (PtrV.Parse [gs "noise"] none (some (gs "boom"))).emitted =
          (PtrV.Parse [gs "noise"] none none).emitted) := by
  constructor
  · refine ⟨by rfl, ?_, ?_⟩
    · exact ((completion_hook_semantics [gs "SUCCESS COMPLETE WRF"] none).1 (by rfl)
        (some (gs "boom"))).1
    · exact (((completion_hook_semantics [gs "SUCCESS COMPLETE WRF"] none).1 (by rfl)
        (some (gs "boom"))).2.2 (gs "boom") rfl).trans (by rfl)
  · refine ⟨by decide, ?_⟩
    exact (completion_hook_semantics [gs "noise"] none).2 (by decide)
      (some (gs "boom")) none

theorem loop_len (lines : List GoStr) : ∀ start,
    (PtrV.ParseLoop start lines).emitted.length = PtrV.countDecoded start lines := by
  induction lines with
  | nil => intro start; rfl
  | cons line rest ih =>
    intro start
    rw [PtrV.ParseLoop, PtrV.countDecoded, PtrV.parseCurrLine]
    by_cases hs : isStartInstantLine start line
    · rw [if_pos hs, if_pos hs]
      cases hps : parseStartInstant line with
      | error e => rfl
      | ok t =>
        dsimp only
        rw [List.nil_append]
        exact ih (some t)
    · rw [if_neg hs, if_neg hs]
      by_cases hf : isFileInfoLine line
      · rw [if_pos hf, if_pos hf]
        cases hpf : PtrV.parseFileInfo start line with
        | error e => rfl
        | ok mi =>
          cases mi with
          | none =>
            dsimp only
            by_cases hsc : isSuccessLine line
            · rw [if_pos hsc, if_pos hsc]
              rfl
            · rw [if_neg hsc, if_neg hsc]
              dsimp only
              rw [List.nil_append]
              exact ih start
          | some info =>
            dsimp only
            by_cases hsc : isSuccessLine line
            · rw [if_pos hsc, if_pos hsc]
              rfl
            · rw [if_neg hsc, if_neg hsc]
              dsimp only
              simp only [List.cons_append, List.nil_append, List.length_cons]
              rw [ih start]
              omega
      · rw [if_neg hf, if_neg hf]
        by_cases hsc : isSuccessLine line
        · rw [if_pos hsc, if_pos hsc]
          rfl
        · rw [if_neg hsc, if_neg hsc]
          dsimp only
          rw [List.nil_append]
          exact ih start

/-- C4: a timing line whose extracted filename is exactly `restart` is
silently elided by the decoder — no record and no failure (`.ok none`) —
and, for every input, the number of failure-free items the parser emits
equals the number of successfully decoded non-restart timing lines among
the lines it processes. -/
theorem restart_skipped_and_record_count :
    (∀ (startT : DateTime) (currline : GoStr),
        (goSplit (goTrimStart currline filesMarker) (gs " for domain")).length = 2 →
        goTrimSpace ((goSplit (goTrimStart currline filesMarker) (gs " for domain")).getD 0 [])
          = gs "restart" →
        PtrV.parseFileInfo (some startT) currline = .ok none)
    ∧ (∀ (lines : List GoStr) (readErr hookErr : Option GoStr),
        ((PtrV.Parse lines readErr hookErr).emitted.filter (fun f => f.err.isNone)).length =
          PtrV.countDecoded none lines) := by
  constructor
  · intro startT currline h2 hr
    simp only [PtrV.parseFileInfo]
    rw [if_neg (not_not_intro h2), if_pos hr]
  · intro lines readErr hookErr
    have hlen := loop_len lines none
    have hok := ParseLoop_emits_ok lines none
    have hfilter : (PtrV.ParseLoop none lines).emitted.filter (fun f => f.err.isNone) =
        (PtrV.ParseLoop none lines).emitted := by
      rw [List.filter_eq_self]
      intro f hf
      simp [hok f hf]
    unfold PtrV.Parse
    dsimp only
    rcases ht : (PtrV.ParseLoop none lines).term with _ | e
    · cases readErr <;> simp [List.filter_append, errItem, hfilter, hlen]
    · dsimp only
      by_cases hc : e = completedMsg
      · rw [if_pos hc]
        cases hookErr <;> simp [List.filter_append, errItem, hfilter, hlen]
      · rw [if_neg hc]
        simp [List.filter_append, errItem, hfilter, hlen]

theorem restart_skipped_and_record_count_witness :
    ((goSplit
        (goTrimStart
          (gs "Timing for Writing restart for domain        1:    1.33332 elapsed seconds")
          filesMarker)
        (gs " for domain")).length = 2
      ∧ goTrimSpace
          ((goSplit
            (goTrimStart
              (gs "Timing for Writing restart for domain        1:    1.33332 elapsed seconds")
              filesMarker)
            (gs " for domain")).getD 0 []) = gs "restart")
    ∧ PtrV.parseFileInfo (some ⟨2021, 8, 4, 0, 0, 0⟩)
        (gs "Timing for Writing restart for domain        1:    1.33332 elapsed seconds")
        = .ok none :=
  ⟨⟨by rfl, by rfl⟩,
   restart_skipped_and_record_count.1 ⟨2021, 8, 4, 0, 0, 0⟩
     (gs "Timing for Writing restart for domain        1:    1.33332 elapsed seconds")
     (by rfl) (by rfl)⟩

theorem tdiv_natCast_eq_truncTowardZero (a : ℤ) (b : ℕ) (hb : 0 < b) :
    a.tdiv (b : ℤ) = truncTowardZero ((a : ℚ) / (b : ℚ)) := by
  unfold truncTowardZero
  rcases le_or_lt 0 a with ha | ha
  · obtain ⟨m, rfl⟩ := Int.eq_ofNat_of_zero_le ha
    have h0 : (0 : ℚ) ≤ ((m : ℤ) : ℚ) / (b : ℚ) :=
      div_nonneg (by exact_mod_cast Int.ofNat_nonneg m) (by positivity)
    rw [if_pos h0, Rat.floor_intCast_div_natCast, ← Int.ofNat_tdiv, Int.ofNat_ediv]
  · obtain ⟨m, rfl⟩ := Int.eq_negSucc_of_lt_zero ha
    have hqneg : ((Int.negSucc m : ℤ) : ℚ) / (b : ℚ) < 0 := by
      apply div_neg_of_neg_of_pos
      · rw [Int.negSucc_eq]
        push_cast
        linarith
      · exact_mod_cast hb
    rw [if_neg (not_le.mpr hqneg)]
    have hrw : ((Int.negSucc m : ℤ) : ℚ) / (b : ℚ) = -(((m + 1 : ℕ) : ℤ) : ℚ) / (b : ℚ) := by
      rw [Int.negSucc_eq]
      push_cast
      ring
    rw [hrw, neg_div, Int.ceil_neg, Rat.floor_intCast_div_natCast, ← Int.ofNat_ediv]
    rfl

/-- C2 counterexample: the claim says every successfully decoded timing
line's hourOffset equals the exact fractional-hour difference truncated
toward zero, but the program computes `int(Instant.Sub(Start).Hours())`
and `Time.Sub` saturates at the `Duration` bound `1<<63 - 1` nanoseconds
(about 292 years): with RunStart 2021-08-04 00:00:00 the decodable line
`wrfout_d01_2500-08-04_00:00:00` produces a record with hourOffset
2562047 (the truncated hours of the saturated duration), while the exact
fractional-hour difference truncates to 4198824. -/
theorem hourOffset_saturates_counterexample :
    (PtrV.parseFileInfo (some ⟨2021, 8, 4, 0, 0, 0⟩)
        (gs "Timing for Writing wrfout_d01_2500-08-04_00:00:00 for domain        1:    0.10 elapsed seconds")
      = .ok (some { ftype := gs "wrfout", domain := 1, instant := ⟨2500, 8, 4, 0, 0, 0⟩,
                    hourProgr := 2562047, filename := gs "wrfout_d01_2500-08-04_00:00:00",
                    err := none }))
    ∧ truncTowardZero
        ((((⟨2500, 8, 4, 0, 0, 0⟩ : DateTime).toSeconds -
            (⟨2021, 8, 4, 0, 0, 0⟩ : DateTime).toSeconds : ℤ) : ℚ) / (3600 : ℚ)) = 4198824
    ∧ (2562047 : ℤ) ≠ 4198824 := by
  refine ⟨by rfl, ?_, by decide⟩
  have hsec : (⟨2500, 8, 4, 0, 0, 0⟩ : DateTime).toSeconds -
      (⟨2021, 8, 4, 0, 0, 0⟩ : DateTime).toSeconds = 15115766400 := by rfl
  rw [hsec]
  norm_num [truncTowardZero]

/-- C2 (amended): a decoded record's hourOffset is the fractional-hour
value of the *saturated* duration truncated toward zero: the nanosecond
difference instant - RunStart is first clamped to Go's `Duration` range
(`Time.Sub` saturates at about ±292 years), and hourOffset is that
clamped duration divided by one hour, truncated toward zero (floor for
non-negative values, ceiling for negative ones — not rounding, not
flooring). In particular, whenever the nanosecond difference lies inside
the `Duration` range, the original statement holds: hourOffset is the
exact fractional-hour difference truncated toward zero, so an instant 89
minutes after RunStart yields 1 and one 59 minutes after yields 0. -/
theorem hourOffset_truncates_saturated (startT : DateTime) (currline : GoStr) (r : FileInfo)
    (h : PtrV.parseFileInfo (some startT) currline = .ok (some r)) :
    r.hourProgr =
      truncTowardZero
        (((durSub r.instant.toSeconds startT.toSeconds : ℤ) : ℚ) / (3600000000000 : ℚ))
    ∧ (-9223372036854775808 ≤ (r.instant.toSeconds - startT.toSeconds) * 1000000000 →
       (r.instant.toSeconds - startT.toSeconds) * 1000000000 ≤ 9223372036854775807 →
       r.hourProgr =
         truncTowardZero (((r.instant.toSeconds - startT.toSeconds : ℤ) : ℚ) / (3600 : ℚ))) := by
  have h1 : r.hourProgr =
      truncTowardZero
        (((durSub r.instant.toSeconds startT.toSeconds : ℤ) : ℚ) / (3600000000000 : ℚ)) := by
    simp only [PtrV.parseFileInfo] at h
    split at h
    · exact absurd h (by simp)
    · split at h
      · simp at h
      · split at h
        · exact absurd h (by simp)
        · split at h
          · exact absurd h (by simp)
          · split at h
            · exact absurd h (by simp)
            · rename_i instant heq
              rw [Except.ok.injEq, Option.some.injEq] at h
              subst h
              have hkey := tdiv_natCast_eq_truncTowardZero
                (durSub instant.toSeconds startT.toSeconds) 3600000000000 (by norm_num)
              simpa using hkey
  refine ⟨h1, fun hlo hhi => ?_⟩
  rw [h1]
  have hd : durSub r.instant.toSeconds startT.toSeconds =
      (r.instant.toSeconds - startT.toSeconds) * 1000000000 := by
    unfold durSub
    rw [if_neg (not_lt.mpr hlo), if_neg (not_lt.mpr hhi)]
  rw [hd]
  congr 1
  push_cast
  field_simp
  ring

theorem hourOffset_truncates_saturated_witness :
    (PtrV.parseFileInfo (some ⟨2021, 8, 4, 0, 0, 0⟩)
        (gs "Timing for Writing wrfout_d01_2021-08-04_01:29:00 for domain        1:    0.10 elapsed seconds")
      = .ok (some { ftype := gs "wrfout", domain := 1, instant := ⟨2021, 8, 4, 1, 29, 0⟩,
                    hourProgr := 1, filename := gs "wrfout_d01_2021-08-04_01:29:00",
                    err := none }))
    ∧ ({ ftype := gs "wrfout", domain := 1, instant := ⟨2021, 8, 4, 1, 29, 0⟩,
         hourProgr := 1, filename := gs "wrfout_d01_2021-08-04_01:29:00",
         err := none } : FileInfo).hourProgr =
        truncTowardZero
          (((durSub (⟨2021, 8, 4, 1, 29, 0⟩ : DateTime).toSeconds
              (⟨2021, 8, 4, 0, 0, 0⟩ : DateTime).toSeconds : ℤ) : ℚ) / (3600000000000 : ℚ))
    ∧ ({ ftype := gs "wrfout", domain := 1, instant := ⟨2021, 8, 4, 1, 29, 0⟩,
         hourProgr := 1, filename := gs "wrfout_d01_2021-08-04_01:29:00",
         err := none } : FileInfo).hourProgr =
        truncTowardZero
          ((((⟨2021, 8, 4, 1, 29, 0⟩ : DateTime).toSeconds -
              (⟨2021, 8, 4, 0, 0, 0⟩ : DateTime).toSeconds : ℤ) : ℚ) / (3600 : ℚ)) :=
  ⟨by rfl,
   (hourOffset_truncates_saturated ⟨2021, 8, 4, 0, 0, 0⟩
     (gs "Timing for Writing wrfout_d01_2021-08-04_01:29:00 for domain        1:    0.10 elapsed seconds")
     _ (by rfl)).1,
   (hourOffset_truncates_saturated ⟨2021, 8, 4, 0, 0, 0⟩
     (gs "Timing for Writing wrfout_d01_2021-08-04_01:29:00 for domain        1:    0.10 elapsed seconds")
     _ (by rfl)).2 (by decide) (by decide)⟩

theorem wrapTiming_msg_inj (l m1 m2 : GoStr) (h : wrapTiming l m1 = wrapTiming l m2) :
    m1 = m2 := by
  unfold wrapTiming at h
  exact List.append_cancel_left h

/-- C3 counterexample: the claim says a timing line whose filename's second
underscore part does not start with `d` (or whose domain is not a positive
integer) must fail with the invalid-domain failure, but the decoder strips
the `d` only when present (`strings.TrimPrefix`) and accepts any signed
32-bit integer: the filename `wrfout_-5_2021-08-04_01:00:00` decodes
successfully into a record whose domain is the negative number -5. -/
theorem domain_d_optional_counterexample :
    PtrV.parseFileInfo (some ⟨2021, 8, 4, 0, 0, 0⟩)
        (gs "Timing for Writing wrfout_-5_2021-08-04_01:00:00 for domain        1:    0.10 elapsed seconds")
      = .ok (some { ftype := gs "wrfout", domain := -5, instant := ⟨2021, 8, 4, 1, 0, 0⟩,
                    hourProgr := 1, filename := gs "wrfout_-5_2021-08-04_01:00:00",
                    err := none })
    ∧ goStartsWith (gs "-5") (gs "d") = false :=
  ⟨by rfl, by rfl⟩

/-- C3 (amended): for a timing line reaching the domain stage (RunStart
established, `" for domain"` found, filename not `restart` and made of
exactly four underscore parts), decoding fails with the invalid-domain
failure iff the second part, after stripping an optional leading `d`,
does not parse as a signed 32-bit integer; when decoding produces a
record, its domain is exactly that parsed integer — the `d` prefix is
optional and the domain may be zero or negative. -/
theorem invalidDomain_iff_parseInt_fails (startT : DateTime) (currline : GoStr)
    (h2 : (goSplit (goTrimStart currline filesMarker) (gs " for domain")).length = 2)
    (hr : goTrimSpace ((goSplit (goTrimStart currline filesMarker) (gs " for domain")).getD 0 [])
        ≠ gs "restart")
    (h4 : (goSplit
            (goTrimSpace ((goSplit (goTrimStart currline filesMarker) (gs " for domain")).getD 0 []))
            (gs "_")).length = 4) :
    (PtrV.parseFileInfo (some startT) currline =
        .error (wrapTiming currline (gs "invalid domain"))
      ↔ parseInt32
          (goTrimStart
            ((goSplit
                (goTrimSpace
                  ((goSplit (goTrimStart currline filesMarker) (gs " for domain")).getD 0 []))
                (gs "_")).getD 1 [])
            (gs "d")) = none)
    ∧ (∀ r : FileInfo, PtrV.parseFileInfo (some startT) currline = .ok (some r) →
        parseInt32
          (goTrimStart
            ((goSplit
                (goTrimSpace
                  ((goSplit (goTrimStart currline filesMarker) (gs " for domain")).getD 0 []))
                (gs "_")).getD 1 [])
            (gs "d")) = some r.domain) := by
  simp only [PtrV.parseFileInfo]
  rw [if_neg (not_not_intro h2), if_neg hr, if_neg (not_not_intro h4)]
  cases hpi : parseInt32
      (goTrimStart
        ((goSplit
            (goTrimSpace
              ((goSplit (goTrimStart currline filesMarker) (gs " for domain")).getD 0 []))
            (gs "_")).getD 1 [])
        (gs "d")) with
  | none =>
    refine ⟨by simp, ?_⟩
    intro r hok
    exact absurd hok (by simp)
  | some v =>
    cases hts : parseTsWith []
        ((goSplit
            (goTrimSpace
              ((goSplit (goTrimStart currline filesMarker) (gs " for domain")).getD 0 []))
            (gs "_")).getD 2 [] ++
          (goSplit
            (goTrimSpace
              ((goSplit (goTrimStart currline filesMarker) (gs " for domain")).getD 0 []))
            (gs "_")).getD 3 []) with
    | none =>
      constructor
      · constructor
        · intro heq
          rw [Except.error.injEq] at heq
          have hmsg := wrapTiming_msg_inj _ _ _ heq
          exact absurd hmsg (by decide)
        · intro heq
          cases heq
      · intro r hok
        exact absurd hok (by simp)
    | some inst =>
      constructor
      · constructor
        · intro heq
          exact absurd heq (by simp)
        · intro heq
          cases heq
      · intro r hok
        rw [Except.ok.injEq, Option.some.injEq] at hok
        rw [← hok]

theorem invalidDomain_iff_parseInt_fails_witness :
    ((goSplit
        (goTrimStart
          (gs "Timing for Writing wrfout_-5_2021-08-04_01:00:00 for domain        1:    0.10 elapsed seconds")
          filesMarker)
        (gs " for domain")).length = 2
      ∧ goTrimSpace
          ((goSplit
            (goTrimStart
              (gs "Timing for Writing wrfout_-5_2021-08-04_01:00:00 for domain        1:    0.10 elapsed seconds")
              filesMarker)
            (gs " for domain")).getD 0 []) ≠ gs "restart")
    ∧ (∀ r : FileInfo,
        PtrV.parseFileInfo (some ⟨2021, 8, 4, 0, 0, 0⟩)
            (gs "Timing for Writing wrfout_-5_2021-08-04_01:00:00 for domain        1:    0.10 elapsed seconds")
          = .ok (some r) →
        parseInt32
          (goTrimStart
            ((goSplit
                (goTrimSpace
                  ((goSplit
                    (goTrimStart
                      (gs "Timing for Writing wrfout_-5_2021-08-04_01:00:00 for domain        1:    0.10 elapsed seconds")
                      filesMarker)
                    (gs " for domain")).getD 0 []))
                (gs "_")).getD 1 [])
            (gs "d")) = some r.domain) :=
  ⟨⟨by rfl, by decide⟩,
   (invalidDomain_iff_parseInt_fails ⟨2021, 8, 4, 0, 0, 0⟩
     (gs "Timing for Writing wrfout_-5_2021-08-04_01:00:00 for domain        1:    0.10 elapsed seconds")
     (by rfl) (by decide) (by rfl)).2⟩

/-- C6: the watchdog only measures the gap between successive arrivals
from the producer (its timer is re-armed each time it re-enters the
select, i.e. after each completed forward): when every arrival gap is
within the threshold the watchdog is a pure relay — no timeout is ever
injected, however long the trace — and as soon as one gap exceeds the
threshold (with everything before it timely, forwarded and failure-free)
the stream ends with the synthetic timeout failure. -/
theorem watchdog_timeout_semantics (timeout : Nat) :
    (∀ trace : List (Nat × Option FileInfo),
        (∀ p ∈ trace, p.1 ≤ timeout) →
        PtrV.NewFileInfoChan timeout trace = PtrV.relayAll trace)
    ∧ (∀ (pre : List (Nat × Option FileInfo)) (gap : Nat) (mf : Option FileInfo)
          (rest : List (Nat × Option FileInfo)),
        (∀ p ∈ pre, p.1 ≤ timeout ∧ ∃ f, p.2 = some f ∧ f.err = none) →
        timeout < gap →
        PtrV.NewFileInfoChan timeout (pre ++ (gap, mf) :: rest) =
          pre.filterMap (fun p => p.2) ++ [timeoutItem timeout]) := by
  constructor
  · intro trace h
    induction trace with
    | nil => rfl
    | cons p rest ih =>
      rcases p with ⟨gap, mf⟩
      have hgap : gap ≤ timeout := (h (gap, mf) (List.mem_cons_self _ _))
      cases mf with
      | none =>
        rw [PtrV.NewFileInfoChan, PtrV.relayAll, if_neg (not_lt.mpr hgap)]
      | some f =>
        rw [PtrV.NewFileInfoChan, PtrV.relayAll, if_neg (not_lt.mpr hgap)]
        by_cases herr : f.err.isSome
        · rw [if_pos herr, if_pos herr]
        · rw [if_neg herr, if_neg herr,
            ih (fun q hq => h q (List.mem_cons_of_mem _ hq))]
  · intro pre
    induction pre with
    | nil =>
      intro gap mf rest hpre hgap
      cases mf with
      | none =>
        rw [List.nil_append, PtrV.NewFileInfoChan, if_pos hgap]
        rfl
      | some f =>
        rw [List.nil_append, PtrV.NewFileInfoChan, if_pos hgap]
        rfl
    | cons p pres ih =>
      rcases p with ⟨g, mp⟩
      intro gap mf rest hpre hgap
      obtain ⟨hg, f, hf, hferr⟩ := hpre (g, mp) (List.mem_cons_self _ _)
      subst hf
      rw [List.cons_append, PtrV.NewFileInfoChan, if_neg (not_lt.mpr hg)]
      rw [if_neg (by simp [hferr]),
        ih gap mf rest (fun q hq => hpre q (List.mem_cons_of_mem _ hq)) hgap]
      simp [List.filterMap_cons]

theorem watchdog_timeout_semantics_witness :
    ((∀ p ∈ ([(1, some { ftype := gs "wrfout" })] : List (Nat × Option FileInfo)), p.1 ≤ 5)
      ∧ PtrV.NewFileInfoChan 5 [(1, some { ftype := gs "wrfout" })] =
          PtrV.relayAll [(1, some { ftype := gs "wrfout" })])
    ∧ ((∀ p ∈ ([(1, some { ftype := gs "wrfout" })] : List (Nat × Option FileInfo)),
          p.1 ≤ 5 ∧ ∃ f, p.2 = some f ∧ f.err = none)
      ∧ 5 < 7
      ∧ PtrV.NewFileInfoChan 5
          ([(1, some { ftype := gs "wrfout" })] ++ (7, some { ftype := gs "aux" }) :: []) =
          ([(1, some { ftype := gs "wrfout" })] :
              List (Nat × Option FileInfo)).filterMap (fun p => p.2) ++ [timeoutItem 5]) := by
  have h1 : ∀ p ∈ ([(1, some { ftype := gs "wrfout" })] : List (Nat × Option FileInfo)),
      p.1 ≤ 5 := by
    rintro p hp
    rcases List.mem_singleton.mp hp with rfl
    norm_num
  have h2 : ∀ p ∈ ([(1, some { ftype := gs "wrfout" })] : List (Nat × Option FileInfo)),
      p.1 ≤ 5 ∧ ∃ f, p.2 = some f ∧ f.err = none := by
    rintro p hp
    rcases List.mem_singleton.mp hp with rfl
    exact ⟨by norm_num, { ftype := gs "wrfout" }, rfl, rfl⟩
  refine ⟨⟨h1, (watchdog_timeout_semantics 5).1 _ h1⟩,
          ⟨h2, by norm_num, (watchdog_timeout_semantics 5).2 _ 7
            (some { ftype := gs "aux" }) [] h2 (by norm_num)⟩⟩

/-- C10: in the value-channel variant a `FileInfo` with empty `Type` and
nil `Err` is exactly the watchdog's end-of-stream sentinel (`IsEmpty`),
so a timing line whose four-part filename has an empty first part —
`_d01_2021-08-04_01:00:00` — makes the parser emit a record with empty
kind that the watchdog mistakes for the close sentinel: the public stream
closes silently, delivering neither that record, nor the later `wrfout`
record, nor any failure. -/
theorem empty_kind_record_swallows_stream :
    (ValV.Parse
        [gs "d01 2021-08-04_00:00:00 alloc_space_field: domain 2",
         gs "Timing for Writing _d01_2021-08-04_01:00:00 for domain        1:    0.10 elapsed seconds",
         gs "Timing for Writing wrfout_d01_2021-08-04_02:00:00 for domain        1:    0.10 elapsed seconds",
         gs "SUCCESS COMPLETE WRF"] none none =
      [{ ftype := [], domain := 1, instant := ⟨2021, 8, 4, 1, 0, 0⟩, hourProgr := 1,
         filename := gs "_d01_2021-08-04_01:00:00", err := none },
       { ftype := gs "wrfout", domain := 1, instant := ⟨2021, 8, 4, 2, 0, 0⟩, hourProgr := 2,
         filename := gs "wrfout_d01_2021-08-04_02:00:00", err := none }])
    ∧ FileInfo.IsEmpty
        { ftype := [], domain := 1, instant := ⟨2021, 8, 4, 1, 0, 0⟩, hourProgr := 1,
          filename := gs "_d01_2021-08-04_01:00:00", err := none } = true
    ∧ ValV.newFileInfoChan 100
        ((ValV.Parse
            [gs "d01 2021-08-04_00:00:00 alloc_space_field: domain 2",
             gs "Timing for Writing _d01_2021-08-04_01:00:00 for domain        1:    0.10 elapsed seconds",
             gs "Timing for Writing wrfout_d01_2021-08-04_02:00:00 for domain        1:    0.10 elapsed seconds",
             gs "SUCCESS COMPLETE WRF"] none none).map (fun f => (0, f))) = [] :=
  ⟨by rfl, by rfl, by rfl⟩

theorem failure_is_terminal_witness :
    ({ ftype := gs "wrfout" } : FileInfo).err = none
    ∧ ({ ftype := gs "wrfout", domain := 1, instant := ⟨2021, 8, 4, 1, 0, 0⟩, hourProgr := 1,
         filename := gs "wrfout_d01_2021-08-04_01:00:00", err := none } : FileInfo).err = none :=
  ⟨failure_is_terminal.1 5 [(0, some { ftype := gs "wrfout" }), (0, some (errItem (gs "boom")))]
     { ftype := gs "wrfout" } (by decide),
   failure_is_terminal.2
     [gs "d01 2021-08-04_00:00:00 x y",
      gs "Timing for Writing wrfout_d01_2021-08-04_01:00:00 for domain        1:    0.10 elapsed seconds"]
     none none
     { ftype := gs "wrfout", domain := 1, instant := ⟨2021, 8, 4, 1, 0, 0⟩, hourProgr := 1,
       filename := gs "wrfout_d01_2021-08-04_01:00:00", err := none } (by decide)⟩
